import Mathlib

/-!
# Unicorn Spy Detector: content script

A shallow embedding of `content-script.js` (with the store writes of
`popup.js` and `background.js`), and the properties of the interception
logic and of the activity simulator proved over it.

The script's module-level variables and the part of `chrome.storage.local`
it uses are one explicit `State`; every getter, listener and callback is a
function on that state.  `Date.now()`, `Math.random()`, the current selection
and the page's document are inputs of the functions that read them.
-/

namespace UnicornSpy

/-! ## State -/

/-- The keys of `chrome.storage.local` used by the extension; `none` is a key
that is absent (`undefined`) or `null`. -/
structure Storage where
  blockTracking : Option Bool
  trackingCount : Option Nat
  lastTracking : Option String
  deriving DecidableEq, Repr

/-- The module-level variables of `content-script.js` (lines 13-15), the
requests it has in flight at the store, and the store itself. -/
structure State where
  /-- Set by `let protectionEnabled = true`. -/
  protectionEnabled : Bool
  /-- Set by `let lastVisibilityCheck = 0`, a `Date.now()` value in ms. -/
  lastVisibilityCheck : Int
  /-- Set by `let localTrackingCount = 0`. -/
  localTrackingCount : Nat
  /-- The answers in flight to the calls
  `chrome.storage.local.get(['trackingCount'], ...)` of `logTrackingAttempt`
  whose callback has not run yet, oldest first: each is the contents the
  store had when the request was made. -/
  trackingAnswers : List Storage
  /-- The answer in flight to the settings request of line 18 (the contents
  the store had when the script loaded); `none` once its callback has run. -/
  settingsAnswer : Option Storage
  /-- Whether a call into `chrome.storage` throws synchronously (the case the
  `try`/`catch` of `logTrackingAttempt` is there for). -/
  storageThrows : Bool
  /-- Contents of `chrome.storage.local`. -/
  store : Storage
  deriving DecidableEq, Repr

/-- The number of calls `chrome.storage.local.get(['trackingCount'], ...)`
issued by `logTrackingAttempt` whose callback has not run yet. -/
def State.pendingTrackingGets (s : State) : Nat :=
  s.trackingAnswers.length

/-- Whether the callback of the settings request of line 18 has still to run. -/
def State.settingsLoadPending (s : State) : Bool :=
  s.settingsAnswer.isSome

/-- State right after the script's top level has run (lines 13-29 and 347),
over a store holding `store`. -/
def initialState (store : Storage) : State :=
  { protectionEnabled := true
    lastVisibilityCheck := 0
    localTrackingCount := 0
    trackingAnswers := []
    settingsAnswer := some store
    storageThrows := false
    store := store }

/-- The object `defaultSettings` of `background.js` (lines 13-19); `installDate`
and `version` are not read by the content script. -/
def defaultSettings : Storage :=
  { blockTracking := some true, trackingCount := some 0, lastTracking := none }

/-- The write of the `onInstalled` listener of `background.js` (line 22):
`chrome.storage.local.set(defaultSettings)`, made before `details.reason` is
looked at, so on an install and on an update alike. -/
def onInstalled (store : Storage) : Storage :=
  { store with
    blockTracking := defaultSettings.blockTracking
    trackingCount := defaultSettings.trackingCount
    lastTracking := defaultSettings.lastTracking }

/-! ## logTrackingAttempt -/

/-- Function `logTrackingAttempt` (lines 34-49), up to the point where the
store request is issued: the counter is incremented first, so it stays
incremented when the request throws and the `catch` swallows the error.  The
request is answered with the contents the store has now; the callback runs
later, as the step `trackingGetDone`. -/
def logTrackingAttempt (s : State) : State :=
  if !s.protectionEnabled then s
  else
    let s1 := { s with localTrackingCount := s.localTrackingCount + 1 }
    if s1.storageThrows then s1
    else { s1 with trackingAnswers := s1.trackingAnswers ++ [s1.store] }

/-- The callback `(data) => ...` of `logTrackingAttempt` (lines 39-45), run
with the object `data` the store delivers and with `time` the value of
`new Date().toLocaleTimeString()`; `data.trackingCount || 0` is
`data.trackingCount.getD 0`.  The answer it was run with is no longer in
flight. -/
def trackingGetCallback (data : Storage) (time : String) (s : State) : State :=
  let newCount := data.trackingCount.getD 0 + 1
  { s with
    trackingAnswers := s.trackingAnswers.tail
    store := { s.store with trackingCount := some newCount, lastTracking := some time } }

/-! ## Visibility accessors -/

/-- The four accessors redefined on `Document.prototype`. -/
inductive VisibilityProp where
  | hidden
  | webkitHidden
  | visibilityState
  | webkitVisibilityState
  deriving DecidableEq, Repr

/-- What a getter returns: a boolean or a string. -/
inductive JsValue where
  | bool (b : Bool)
  | str (v : String)
  deriving DecidableEq, Repr

/-- The body shared by the four getters (lines 71-75 and 90-94): the debounce
test and the counted attempt. -/
def visibilityCheck (now : Int) (s : State) : State :=
  if now - s.lastVisibilityCheck > 500 && s.protectionEnabled then
    logTrackingAttempt { s with lastVisibilityCheck := now }
  else s

/-- The getter installed for `prop` by `overrideVisibilityProperties`
(lines 67-102), called when `Date.now()` is `now`: the new state and the
value returned. -/
def visibilityGetter (prop : VisibilityProp) (now : Int) (s : State) : State × JsValue :=
  match prop with
  | .hidden => (visibilityCheck now s, .bool false)
  | .webkitHidden => (visibilityCheck now s, .bool false)
  | .visibilityState => (visibilityCheck now s, .str "visible")
  | .webkitVisibilityState => (visibilityCheck now s, .str "visible")

/-- One read of a visibility accessor: which accessor, and the clock value. -/
structure VisibilityRead where
  prop : VisibilityProp
  now : Int
  deriving DecidableEq, Repr

/-- State after a sequence of reads, in order. -/
def readAll (s : State) (reads : List VisibilityRead) : State :=
  reads.foldl (fun st r => (visibilityGetter r.prop r.now st).1) s

/-! ## Event listeners -/

/-- The methods of an event object the listeners call. -/
inductive EventCall where
  | setData (format data : String)
  | preventDefault
  | stopPropagation
  | stopImmediatePropagation
  deriving DecidableEq, Repr

/-- An event as a listener sees it: whether `e.clipboardData` is an object
(it is `null` on a `ClipboardEvent` built without one and `undefined` on a
plain `Event`), and the calls made on the event so far, oldest first. -/
structure DomEvent where
  hasClipboardData : Bool
  calls : List EventCall
  deriving DecidableEq, Repr

/-- Record one more call on the event. -/
def DomEvent.call (e : DomEvent) (c : EventCall) : DomEvent :=
  { e with calls := e.calls ++ [c] }

/-- The payload stored for `format` by the latest `setData` call, if any. -/
def DomEvent.getData (e : DomEvent) (format : String) : Option String :=
  e.calls.foldl
    (fun acc c =>
      match c with
      | .setData f d => if f = format then some d else acc
      | _ => acc)
    none

/-- Whether the event no longer reaches listeners further along its path. -/
def DomEvent.propagationStopped (e : DomEvent) : Bool :=
  e.calls.contains .stopPropagation || e.calls.contains .stopImmediatePropagation

/-- Whether `preventDefault` was called on the event. -/
def DomEvent.preventDefaultCalled (e : DomEvent) : Bool :=
  e.calls.contains .preventDefault

/-- The listener of `visibilitychange` on `document` (lines 105-109). -/
def visibilityChangeListener (e : DomEvent) (s : State) : State × DomEvent :=
  if !s.protectionEnabled then (s, e)
  else (logTrackingAttempt s, e.call .stopImmediatePropagation)

/-- The event types of `blockFocusEvents`. -/
inductive FocusEventType where
  | blur
  | focus
  | focusin
  | focusout
  deriving DecidableEq, Repr

/-- The listener `blockFocusEvents` adds on `window` for each of the four
event types (lines 245-249); the body is the same for all. -/
def focusListener (_eventType : FocusEventType) (e : DomEvent) (s : State) :
    State × DomEvent :=
  if !s.protectionEnabled then (s, e)
  else (logTrackingAttempt s, e.call .stopImmediatePropagation)

/-- The event types of `protectClipboard`. -/
inductive ClipboardEventType where
  | copy
  | cut
  deriving DecidableEq, Repr

/-- The body of the `copy` listener and of the `cut` listener of
`protectClipboard` (lines 208-221 and 224-237), with `selectedText` the value
of `window.getSelection().toString()`.  When `e.clipboardData` is not an
object, `e.clipboardData.setData` throws, and the `catch` leaves the rest of
the `try` block not run. -/
def protectClipboardBody (selectedText : String) (e : DomEvent) (s : State) :
    State × DomEvent :=
  if !s.protectionEnabled then (s, e)
  else if selectedText ≠ "" then
    if e.hasClipboardData then
      let e1 := e.call (.setData "text/plain" selectedText)
      let s1 := logTrackingAttempt s
      let e2 := e1.call .preventDefault
      let e3 := e2.call .stopImmediatePropagation
      (s1, e3)
    else (s, e)
  else (s, e)

/-- The listener `protectClipboard` adds on `window` for `eventType`. -/
def protectClipboard (eventType : ClipboardEventType) (selectedText : String)
    (e : DomEvent) (s : State) : State × DomEvent :=
  match eventType with
  | .copy => protectClipboardBody selectedText e s
  | .cut => protectClipboardBody selectedText e s

/-- The event types listed in `blockingEvents` (line 308). -/
inductive BlockingEventType where
  | copy
  | cut
  | contextmenu
  | selectstart
  deriving DecidableEq, Repr

/-- The listener `removeProtection` adds on `document` for each blocking
event type (lines 311-315). -/
def blockingListener (_eventType : BlockingEventType) (e : DomEvent) (s : State) :
    State × DomEvent :=
  if !s.protectionEnabled then (s, e)
  else (s, e.call .stopPropagation)

/-! ## navigator.clipboard -/

/-- The two read methods of `navigator.clipboard`. -/
inductive ClipboardMethod where
  | readText
  | read
  deriving DecidableEq, Repr

/-- One invocation of a browser implementation: which method, on which
receiver (`this`, an object identity), with which `arguments`. -/
structure Invocation where
  method : ClipboardMethod
  receiver : Nat
  arguments : List JsValue
  deriving DecidableEq, Repr

/-- What a clipboard method runs in: the script's state and the log of the
invocations of the browser's own implementations, oldest first. -/
structure ClipEnv where
  st : State
  nativeCalls : List Invocation
  deriving DecidableEq, Repr

/-- What a call returns: the promise of
`Promise.reject(new DOMException(message, name))`, or the value `v` the
browser implementation returned. -/
inductive ClipResult (ρ : Type) where
  | rejected (message name : String)
  | returned (v : ρ)
  deriving DecidableEq, Repr

/-- A function stored at `navigator.clipboard.readText` or `.read`, called on a
receiver `this` with `arguments`. -/
abbrev ClipFn (ρ : Type) := ClipEnv → Nat → List JsValue → ClipEnv × ClipResult ρ

/-- The browser's implementation of `method`, returning `impl this arguments`;
each invocation is logged. -/
def nativeMethod {ρ : Type} (method : ClipboardMethod) (impl : Nat → List JsValue → ρ) :
    ClipFn ρ :=
  fun env this arguments =>
    ({ env with nativeCalls := env.nativeCalls ++ [⟨method, this, arguments⟩] },
      .returned (impl this arguments))

/-- The object `navigator.clipboard`; a method is `none` when the property is
missing. -/
structure Clipboard (ρ : Type) where
  readText : Option (ClipFn ρ)
  read : Option (ClipFn ρ)

/-- The object `navigator`; `clipboard` is `none` when the API is missing. -/
structure Navigator (ρ : Type) where
  clipboard : Option (Clipboard ρ)

/-- The function assigned over `navigator.clipboard.readText` (lines 261-267)
and over `navigator.clipboard.read` (lines 273-279), closed over the function
`original` found there before. -/
def clipboardWrapper {ρ : Type} (original : ClipFn ρ) : ClipFn ρ :=
  fun env this arguments =>
    if env.st.protectionEnabled then
      ({ env with st := logTrackingAttempt env.st },
        .rejected "Not allowed" "NotAllowedError")
    else original env this arguments

/-- Function `protectModernClipboardAPI` (lines 256-282). -/
def protectModernClipboardAPI {ρ : Type} (nav : Navigator ρ) : Navigator ρ :=
  match nav.clipboard with
  | none => nav
  | some cb =>
    let cb1 : Clipboard ρ :=
      match cb.readText with
      | none => cb
      | some originalReadText => { cb with readText := some (clipboardWrapper originalReadText) }
    let cb2 : Clipboard ρ :=
      match cb1.read with
      | none => cb1
      | some originalRead => { cb1 with read := some (clipboardWrapper originalRead) }
    { nav with clipboard := some cb2 }

/-- A page's call `navigator.clipboard.readText(...)` or
`navigator.clipboard.read(...)`; `none` when the call throws because the
object or the method is missing. -/
def Navigator.call {ρ : Type} (nav : Navigator ρ) (method : ClipboardMethod)
    (env : ClipEnv) (this : Nat) (arguments : List JsValue) :
    Option (ClipEnv × ClipResult ρ) :=
  match nav.clipboard with
  | none => none
  | some cb =>
    match method with
    | .readText => cb.readText.map (fun f => f env this arguments)
    | .read => cb.read.map (fun f => f env this arguments)

/-- A browser whose `navigator.clipboard` has both read methods, implemented
by `implReadText` and `implRead`. -/
def nativeNavigator {ρ : Type} (implReadText implRead : Nat → List JsValue → ρ) :
    Navigator ρ :=
  { clipboard := some
      { readText := some (nativeMethod .readText implReadText)
        read := some (nativeMethod .read implRead) } }

/-! ## Store callbacks and the steps of the content script -/

/-- The callback of the settings request (lines 18-22), run with the object
`settings` the store delivers: `settings.blockTracking !== false` is
`settings.blockTracking.getD true`, and `settings.trackingCount || 0` is
`settings.trackingCount.getD 0`.  (The listeners that the second
`initializeProtection()` adds are further copies of the bodies above.) -/
def settingsLoadCallback (settings : Storage) (s : State) : State :=
  { s with
    protectionEnabled := settings.blockTracking.getD true
    localTrackingCount := settings.trackingCount.getD 0
    settingsAnswer := none }

/-- The listener on `chrome.storage.onChanged` (lines 25-29); `blockTracking`
is `changes.blockTracking.newValue` when `changes` has that key. -/
def storageChangedListener (blockTracking : Option Bool) (s : State) : State :=
  match blockTracking with
  | some newValue => { s with protectionEnabled := newValue }
  | none => s

/-- The write of the popup's switch (`popup.js` lines 10-12). -/
def popupSetBlockTracking (checked : Bool) (store : Storage) : Storage :=
  { store with blockTracking := some checked }

/-- The write of the popup's reset button (`popup.js` lines 15-20). -/
def popupResetStats (store : Storage) : Storage :=
  { store with trackingCount := some 0, lastTracking := none }

/-- One step of the content script: an intercepted read, event or call, or
one of its store callbacks. -/
inductive Step where
  | visibilityRead (r : VisibilityRead)
  | visibilityChange (e : DomEvent)
  | focusEvent (eventType : FocusEventType) (e : DomEvent)
  | clipboardEvent (eventType : ClipboardEventType) (selectedText : String) (e : DomEvent)
  | blockingEvent (eventType : BlockingEventType) (e : DomEvent)
  | clipboardRead (method : ClipboardMethod) (this : Nat) (arguments : List JsValue)
  | trackingGetDone (data : Storage) (time : String)
  | settingsLoaded (settings : Storage)
  | storageChanged (blockTracking : Option Bool)
  deriving DecidableEq, Repr

/-- Whether the step is the settings-load callback. -/
def Step.isSettingsLoaded : Step → Bool
  | .settingsLoaded _ => true
  | _ => false

/-- Whether the step is the store callback of `logTrackingAttempt`. -/
def Step.isTrackingGetDone : Step → Bool
  | .trackingGetDone _ _ => true
  | _ => false

/-- The state after a step. -/
def step (s : State) : Step → State
  | .visibilityRead r => (visibilityGetter r.prop r.now s).1
  | .visibilityChange e => (visibilityChangeListener e s).1
  | .focusEvent t e => (focusListener t e s).1
  | .clipboardEvent t sel e => (protectClipboard t sel e s).1
  | .blockingEvent t e => (blockingListener t e s).1
  | .clipboardRead m this arguments =>
    (clipboardWrapper (nativeMethod m (fun _ _ => ())) ⟨s, []⟩ this arguments).1.st
  | .trackingGetDone data time => trackingGetCallback data time s
  | .settingsLoaded settings => settingsLoadCallback settings s
  | .storageChanged b => storageChangedListener b s

/-- When a step can happen: a callback runs only for a request in flight, the
oldest first, and is handed the answer to that request, which is the contents
the store had when the request was made (other writes may have reached the
store since). -/
def canFire (s : State) : Step → Bool
  | .trackingGetDone data _ => decide (s.trackingAnswers.head? = some data)
  | .settingsLoaded settings => decide (s.settingsAnswer = some settings)
  | _ => true

/-- The states the script can be in: it starts over any store contents, takes
steps, and the popup and the background worker may write to the store in
between. -/
inductive Reachable : State → Prop where
  | init (store : Storage) : Reachable (initialState store)
  | step {s : State} (st : Step) : Reachable s → canFire s st = true → Reachable (step s st)
  | popupToggle {s : State} (checked : Bool) :
      Reachable s → Reachable { s with store := popupSetBlockTracking checked s.store }
  | popupReset {s : State} :
      Reachable s → Reachable { s with store := popupResetStats s.store }
  | installed {s : State} :
      Reachable s → Reachable { s with store := onInstalled s.store }

/-- A run of the script on a page, over a store holding a count of 10: a read
of `hidden` is counted (its request is answered with the count 10), the
popup's reset button is pressed, a second read of `hidden` a second later is
counted (its request is answered with the count 0), and the callback of the
first request runs, writing 11. -/
def staleAnswerRun : State :=
  let s0 := initialState ⟨some true, some 10, none⟩
  let s1 := step s0 (.visibilityRead ⟨.hidden, 1000⟩)
  let s2 := { s1 with store := popupResetStats s1.store }
  let s3 := step s2 (.visibilityRead ⟨.hidden, 2000⟩)
  step s3 (.trackingGetDone ⟨some true, some 10, none⟩ "10:00:01")

/-! ## Activity simulator -/

/-- An element of the page, by its tag name in lower case. -/
structure Element where
  tagName : String
  deriving DecidableEq, Repr

/-- The test `element.matches('input, textarea, select, button, a')`. -/
def Element.matchesControls (el : Element) : Bool :=
  el.tagName ∈ ["input", "textarea", "select", "button", "a"]

/-- The page, as `document.elementFromPoint` sees it. -/
abbrev Document := ℚ → ℚ → Option Element

/-- Where `dispatchEvent` is called. -/
inductive DispatchTarget where
  | document
  | element (el : Element)
  deriving DecidableEq, Repr

/-- A `MouseEvent` the simulator built, and the targets it was dispatched on,
in order. -/
structure SyntheticEvent where
  eventType : String
  clientX : ℚ
  clientY : ℚ
  targets : List DispatchTarget
  deriving DecidableEq, Repr

/-- The variables `lastX`, `lastY` of one call of `simulateMouseActivity`,
and the events that call has dispatched so far, oldest first. -/
structure Simulator where
  lastX : ℚ
  lastY : ℚ
  dispatched : List SyntheticEvent
  deriving DecidableEq, Repr

/-- The `mousemove` event of `fireMouseEvent` (lines 183-196) for the point
`(x, y)`: dispatched on `document` and then on the element under the point,
if any. -/
def mouseMoveAt (doc : Document) (x y : ℚ) : SyntheticEvent :=
  let targets : List DispatchTarget :=
    match doc x y with
    | some elementUnderCursor => [.document, .element elementUnderCursor]
    | none => [.document]
  ⟨"mousemove", x, y, targets⟩

/-- Function `fireMouseEvent` (lines 181-200). -/
def fireMouseEvent (doc : Document) (x y : ℚ) (sim : Simulator) : Simulator :=
  { sim with dispatched := sim.dispatched ++ [mouseMoveAt doc x y] }

/-- The variables of one smooth move (lines 133-138); `cleared` is set by
`clearInterval(smoothMove)`. -/
structure SmoothMove where
  steps : Nat
  stepX : ℚ
  stepY : ℚ
  currentStep : Nat
  cleared : Bool
  deriving DecidableEq, Repr

/-- The smooth move set up by lines 133-137 toward `(targetX, targetY)`. -/
def newSmoothMove (sim : Simulator) (targetX targetY : ℚ) (steps : Nat) : SmoothMove :=
  { steps := steps
    stepX := (targetX - sim.lastX) / steps
    stepY := (targetY - sim.lastY) / steps
    currentStep := 0
    cleared := false }

/-- The callback of the inner `setInterval` (lines 138-149). -/
def smoothMoveCallback (doc : Document) (s : State) (m : SmoothMove) (sim : Simulator) :
    SmoothMove × Simulator :=
  if !s.protectionEnabled || m.currentStep ≥ m.steps then
    ({ m with cleared := true }, sim)
  else
    let sim1 := { sim with lastX := sim.lastX + m.stepX, lastY := sim.lastY + m.stepY }
    let sim2 := fireMouseEvent doc sim1.lastX sim1.lastY sim1
    ({ m with currentStep := m.currentStep + 1 }, sim2)

/-- The inner interval firing up to `fuel` times, until it is cleared, while
the script's state stays `s`. -/
def runSmoothMove (doc : Document) (s : State) : Nat → SmoothMove → Simulator →
    SmoothMove × Simulator
  | 0, m, sim => (m, sim)
  | fuel + 1, m, sim =>
    if m.cleared then (m, sim)
    else
      let r := smoothMoveCallback doc s m sim
      runSmoothMove doc s fuel r.1 r.2

/-- The values `Math.random()` returns during one outer tick, in call order
(the one drawn for the inner interval's delay is left out), each in `[0, 1)`. -/
structure TickDraws where
  smooth : ℚ
  targetX : ℚ
  targetY : ℚ
  steps : ℚ
  click : ℚ
  deriving DecidableEq, Repr

/-- The fields `window.innerWidth` and `window.innerHeight`. -/
structure Viewport where
  innerWidth : Nat
  innerHeight : Nat
  deriving DecidableEq, Repr

/-- What one outer tick leaves behind: the simulator, the smooth move it
started if any, and whether it scheduled the delayed click. -/
structure TickResult where
  sim : Simulator
  smoothMove : Option SmoothMove
  clickScheduled : Bool
  deriving DecidableEq, Repr

/-- The callback of the outer `setInterval` (lines 124-174), up to the timers
it starts; `0.3` and `0.1` are taken as `3/10` and `1/10`. -/
def tickCallback (doc : Document) (win : Viewport) (d : TickDraws) (s : State)
    (sim : Simulator) : TickResult :=
  if !s.protectionEnabled then ⟨sim, none, false⟩
  else
    let isSmooth := decide (d.smooth > 3 / 10)
    let targetX : ℚ := ⌊d.targetX * win.innerWidth⌋
    let targetY : ℚ := ⌊d.targetY * win.innerHeight⌋
    let clickScheduled := decide (d.click < 1 / 10)
    if isSmooth then
      let steps := 5 + ⌊d.steps * 10⌋.toNat
      ⟨sim, some (newSmoothMove sim targetX targetY steps), clickScheduled⟩
    else
      let sim1 := { sim with lastX := targetX, lastY := targetY }
      ⟨fireMouseEvent doc sim1.lastX sim1.lastY sim1, none, clickScheduled⟩

/-- The callback of the `setTimeout` of lines 159-172.  It reads no variable
other than `lastX` and `lastY`; the script's state is passed only to show
what it is called in. -/
def delayedClickCallback (doc : Document) (_s : State) (sim : Simulator) : Simulator :=
  match doc sim.lastX sim.lastY with
  | some element =>
    if !element.matchesControls then
      { sim with
        dispatched := sim.dispatched ++ [⟨"click", sim.lastX, sim.lastY, [.element element]⟩] }
    else sim
  | none => sim

/-- The `mousemove` events at the `n` points reached from `(x, y)` by adding
`(dx, dy)` again and again. -/
def interpolated (doc : Document) (x y dx dy : ℚ) : Nat → List SyntheticEvent
  | 0 => []
  | n + 1 => mouseMoveAt doc (x + dx) (y + dy) :: interpolated doc (x + dx) (y + dy) dx dy n

/-! ## Theorems -/

theorem visibilityGetter_state (prop : VisibilityProp) (now : Int) (s : State) :
    (visibilityGetter prop now s).1 = visibilityCheck now s := by
  cases prop <;> rfl

/-- C1: whatever the state (protection on or off, any `lastVisibilityCheck`)
and whatever the clock, `hidden` and `webkitHidden` read `false`, and
`visibilityState` and `webkitVisibilityState` read the string "visible". -/
theorem visibility_reads_fixed (s : State) (now : Int) :
    (visibilityGetter .hidden now s).2 = .bool false ∧
    (visibilityGetter .webkitHidden now s).2 = .bool false ∧
    (visibilityGetter .visibilityState now s).2 = .str "visible" ∧
    (visibilityGetter .webkitVisibilityState now s).2 = .str "visible" :=
  ⟨rfl, rfl, rfl, rfl⟩


/-! ### The debounce of the visibility accessors -/

theorem logTrackingAttempt_enabled (s : State) (h : s.protectionEnabled = true) :
    (logTrackingAttempt s).protectionEnabled = true ∧
    (logTrackingAttempt s).lastVisibilityCheck = s.lastVisibilityCheck ∧
    (logTrackingAttempt s).localTrackingCount = s.localTrackingCount + 1 ∧
    (logTrackingAttempt s).pendingTrackingGets ≤ s.pendingTrackingGets + 1 ∧
    (logTrackingAttempt s).store = s.store := by
  unfold logTrackingAttempt
  cases hthrows : s.storageThrows <;> simp [h, hthrows, State.pendingTrackingGets]

theorem logTrackingAttempt_disabled (s : State) (h : s.protectionEnabled = false) :
    logTrackingAttempt s = s := by
  simp [logTrackingAttempt, h]

theorem logTrackingAttempt_count_le (s : State) :
    s.localTrackingCount ≤ (logTrackingAttempt s).localTrackingCount := by
  cases h : s.protectionEnabled
  · rw [logTrackingAttempt_disabled s h]
  · rw [(logTrackingAttempt_enabled s h).2.2.1]; exact Nat.le_succ _

theorem visibilityCheck_skip (now : Int) (s : State)
    (h : now - s.lastVisibilityCheck ≤ 500 ∨ s.protectionEnabled = false) :
    visibilityCheck now s = s := by
  unfold visibilityCheck
  rcases h with h | h
  · have : ¬ (now - s.lastVisibilityCheck > 500) := not_lt.mpr h
    simp [this]
  · simp [h]

theorem visibilityCheck_counted (now : Int) (s : State)
    (hlate : now - s.lastVisibilityCheck > 500) (hen : s.protectionEnabled = true) :
    (visibilityCheck now s).protectionEnabled = true ∧
    (visibilityCheck now s).lastVisibilityCheck = now ∧
    (visibilityCheck now s).localTrackingCount = s.localTrackingCount + 1 ∧
    (visibilityCheck now s).pendingTrackingGets ≤ s.pendingTrackingGets + 1 := by
  have hs := logTrackingAttempt_enabled { s with lastVisibilityCheck := now } hen
  have hcond : (decide (now - s.lastVisibilityCheck > 500) && s.protectionEnabled) = true := by
    simp [hlate, hen]
  unfold visibilityCheck
  rw [if_pos hcond]
  exact ⟨hs.1, hs.2.1, hs.2.2.1, hs.2.2.2.1⟩

theorem readAll_cons (s : State) (r : VisibilityRead) (reads : List VisibilityRead) :
    readAll s (r :: reads) = readAll (visibilityCheck r.now s) reads := by
  simp [readAll, visibilityGetter_state]

theorem readAll_skip (reads : List VisibilityRead) (s : State)
    (h : ∀ r ∈ reads, r.now - s.lastVisibilityCheck ≤ 500) : readAll s reads = s := by
  induction reads with
  | nil => rfl
  | cons r rest ih =>
    rw [readAll_cons, visibilityCheck_skip r.now s (Or.inl (h r (List.mem_cons_self _ _)))]
    exact ih (fun q hq => h q (List.mem_cons_of_mem _ hq))

/-- C2: from any state, over any sequence of reads of the four accessors whose
clock values do not decrease and all lie within 500 ms of each other, the
attempt counter (and the number of store requests of `logTrackingAttempt`)
grows by at most one. -/
theorem debounce_at_most_one (s : State) (reads : List VisibilityRead)
    (hsorted : reads.Pairwise (fun a b => a.now ≤ b.now))
    (hwindow : ∀ a ∈ reads, ∀ b ∈ reads, b.now - a.now ≤ 500) :
    s.localTrackingCount ≤ (readAll s reads).localTrackingCount ∧
    (readAll s reads).localTrackingCount ≤ s.localTrackingCount + 1 ∧
    (readAll s reads).pendingTrackingGets ≤ s.pendingTrackingGets + 1 := by
  induction reads with
  | nil => simp [readAll]
  | cons r rest ih =>
    rw [readAll_cons]
    by_cases hcount : r.now - s.lastVisibilityCheck > 500 ∧ s.protectionEnabled = true
    · obtain ⟨_, hlvc, hcnt, hpend⟩ := visibilityCheck_counted r.now s hcount.1 hcount.2
      have hrest : readAll (visibilityCheck r.now s) rest = visibilityCheck r.now s := by
        apply readAll_skip
        intro q hq
        rw [hlvc]
        exact hwindow r (List.mem_cons_self _ _) q (List.mem_cons_of_mem _ hq)
      rw [hrest, hcnt]
      exact ⟨Nat.le_succ _, le_refl _, hpend⟩
    · have hskip : visibilityCheck r.now s = s := by
        apply visibilityCheck_skip
        by_cases hen : s.protectionEnabled = true
        · exact Or.inl (not_lt.mp (fun hl => hcount ⟨hl, hen⟩))
        · exact Or.inr (by simpa using hen)
      rw [hskip]
      exact ih (List.Pairwise.of_cons hsorted)
        (fun a ha b hb => hwindow a (List.mem_cons_of_mem _ ha) b (List.mem_cons_of_mem _ hb))

/-- Witness of C2: three reads at 1000, 1200 and 1500 ms on a fresh script. -/
theorem debounce_at_most_one_witness :
    (readAll (initialState defaultSettings)
        [⟨.hidden, 1000⟩, ⟨.visibilityState, 1200⟩, ⟨.webkitHidden, 1500⟩]).localTrackingCount
      ≤ (initialState defaultSettings).localTrackingCount + 1 :=
  (debounce_at_most_one (initialState defaultSettings)
    [⟨.hidden, 1000⟩, ⟨.visibilityState, 1200⟩, ⟨.webkitHidden, 1500⟩]
    (by decide) (by decide)).2.1

theorem readAll_spaced (reads : List VisibilityRead) (s : State) (prev : Int)
    (hen : s.protectionEnabled = true) (hprev : s.lastVisibilityCheck ≤ prev)
    (hspaced : List.Chain (fun a b => a + 500 < b) prev (reads.map (fun r => r.now))) :
    ∀ k, k < reads.length →
      (readAll s (reads.take (k + 1))).localTrackingCount =
        (readAll s (reads.take k)).localTrackingCount + 1 := by
  induction reads generalizing s prev with
  | nil => intro k hk; exact absurd hk (Nat.not_lt_zero _)
  | cons r rest ih =>
    intro k hk
    rw [List.map_cons, List.chain_cons] at hspaced
    have hlate : r.now - s.lastVisibilityCheck > 500 := by
      have := hspaced.1
      omega
    obtain ⟨hen1, hlvc, hcnt, _⟩ := visibilityCheck_counted r.now s hlate hen
    cases k with
    | zero =>
      simp only [List.take_succ_cons, List.take_zero, zero_add]
      rw [readAll_cons]
      simpa [readAll] using hcnt
    | succ k =>
      simp only [List.take_succ_cons]
      rw [readAll_cons, readAll_cons]
      exact ih (visibilityCheck r.now s) r.now hen1 (le_of_eq hlvc) hspaced.2 k
        (Nat.lt_of_succ_lt_succ hk)

/-- C3 (amended): while protection is enabled, over any sequence of reads in
which each read comes more than 500 ms after the one before (the first one
more than 500 ms after a time `prev` not earlier than `lastVisibilityCheck`),
each read raises the attempt counter by exactly one. -/
theorem spaced_reads_each_counted (s : State) (prev : Int) (reads : List VisibilityRead)
    (hen : s.protectionEnabled = true) (hprev : s.lastVisibilityCheck ≤ prev)
    (hspaced : List.Chain (fun a b => b - a > 500) prev (reads.map (fun r => r.now))) :
    ∀ k, k < reads.length →
      (readAll s (reads.take (k + 1))).localTrackingCount =
        (readAll s (reads.take k)).localTrackingCount + 1 := by
  apply readAll_spaced reads s prev hen hprev
  exact List.Chain.imp (fun a b h => by omega) hspaced

/-- Witness of C3 (amended): reads at 1000, 1501 and 2002 ms on a fresh script. -/
theorem spaced_reads_each_counted_witness :
    (readAll (initialState defaultSettings)
        ([⟨.hidden, 1000⟩, ⟨.visibilityState, 1501⟩, ⟨.hidden, 2002⟩].take (2 + 1))
      ).localTrackingCount =
    (readAll (initialState defaultSettings)
        ([⟨.hidden, 1000⟩, ⟨.visibilityState, 1501⟩, ⟨.hidden, 2002⟩].take 2)
      ).localTrackingCount + 1 :=
  spaced_reads_each_counted (initialState defaultSettings) 0
    [⟨.hidden, 1000⟩, ⟨.visibilityState, 1501⟩, ⟨.hidden, 2002⟩]
    rfl (by decide) (by simp) 2 (by decide)

/-- C3, counterexample: with protection enabled, a read at 1000 ms is counted
and a read exactly 500 ms later, at 1500 ms, leaves the counter where it was. -/
theorem spaced_exactly_500_not_counted :
    (initialState defaultSettings).protectionEnabled = true ∧
    (1500 : Int) - 1000 ≥ 500 ∧
    (readAll (initialState defaultSettings) [⟨.hidden, 1000⟩]).localTrackingCount = 1 ∧
    (readAll (initialState defaultSettings)
        [⟨.hidden, 1000⟩, ⟨.hidden, 1500⟩]).localTrackingCount = 1 := by
  decide


/-! ### Protection switched off -/

theorem protectClipboard_body (t : ClipboardEventType) (sel : String) (e : DomEvent)
    (s : State) : protectClipboard t sel e s = protectClipboardBody sel e s := by
  cases t <;> rfl

/-- C4: with `protectionEnabled` false, each interception point (the four
getters, the `visibilitychange` listener, the four focus listeners, the
window-level `copy`/`cut` listeners, the document-level blocking listeners,
and the wrapped clipboard read methods) leaves the whole script state as it
was (so the counter, `lastVisibilityCheck`, the store and the requests in
flight at the store), and makes no call on the event. -/
theorem disabled_interceptions_inert (s : State) (h : s.protectionEnabled = false) :
    (∀ prop now, (visibilityGetter prop now s).1 = s) ∧
    (∀ e, visibilityChangeListener e s = (s, e)) ∧
    (∀ t e, focusListener t e s = (s, e)) ∧
    (∀ t sel e, protectClipboard t sel e s = (s, e)) ∧
    (∀ t e, blockingListener t e s = (s, e)) ∧
    (∀ (implReadText implRead : Nat → List JsValue → Unit) method log this arguments,
      ((protectModernClipboardAPI (nativeNavigator implReadText implRead)).call
          method ⟨s, log⟩ this arguments).map (fun r => r.1.st) = some s) := by
  refine ⟨?_, ?_, ?_, ?_, ?_, ?_⟩
  · intro prop now
    rw [visibilityGetter_state]
    exact visibilityCheck_skip now s (Or.inr h)
  · intro e; simp [visibilityChangeListener, h]
  · intro t e; simp [focusListener, h]
  · intro t sel e; rw [protectClipboard_body]; simp [protectClipboardBody, h]
  · intro t e; simp [blockingListener, h]
  · intro implReadText implRead method log this arguments
    cases method <;>
      simp [protectModernClipboardAPI, nativeNavigator, Navigator.call, clipboardWrapper,
        nativeMethod, h]

/-- Witness of C4: a script whose protection has been switched off. -/
theorem disabled_interceptions_inert_witness :
    (visibilityGetter .hidden 1000
        { initialState defaultSettings with protectionEnabled := false }).1 =
      { initialState defaultSettings with protectionEnabled := false } :=
  (disabled_interceptions_inert
    { initialState defaultSettings with protectionEnabled := false } rfl).1 .hidden 1000

/-! ### Clipboard reads -/

/-- The browser implementation behind `method` in `nativeNavigator`. -/
theorem nativeNavigator_call {ρ : Type} (implReadText implRead : Nat → List JsValue → ρ)
    (method : ClipboardMethod) (env : ClipEnv) (this : Nat) (arguments : List JsValue) :
    (protectModernClipboardAPI (nativeNavigator implReadText implRead)).call
        method env this arguments =
      some (clipboardWrapper
        (nativeMethod method
          (match method with
            | .readText => implReadText
            | .read => implRead)) env this arguments) := by
  cases method <;> simp [protectModernClipboardAPI, nativeNavigator, Navigator.call]

/-- C5: a call of the wrapped `navigator.clipboard.readText` or
`navigator.clipboard.read`, on any receiver with any arguments, returns: with
protection enabled, a promise rejected with `NotAllowedError`, one more
counted attempt, and no invocation of the browser implementation; with
protection disabled, what the browser implementation returns for that
receiver and those arguments, that implementation invoked once, and the
script state as it was. -/
theorem clipboard_read_wrapped {ρ : Type} (implReadText implRead : Nat → List JsValue → ρ)
    (method : ClipboardMethod) (env : ClipEnv) (this : Nat) (arguments : List JsValue) :
    ∃ env1 res,
      (protectModernClipboardAPI (nativeNavigator implReadText implRead)).call
          method env this arguments = some (env1, res) ∧
      if env.st.protectionEnabled = true then
        res = .rejected "Not allowed" "NotAllowedError" ∧
        env1.st.localTrackingCount = env.st.localTrackingCount + 1 ∧
        env1.nativeCalls = env.nativeCalls
      else
        res = .returned
          ((match method with
            | .readText => implReadText
            | .read => implRead) this arguments) ∧
        env1.st = env.st ∧
        env1.nativeCalls = env.nativeCalls ++ [⟨method, this, arguments⟩] := by
  rw [nativeNavigator_call]
  by_cases h : env.st.protectionEnabled = true
  · have hw : ∀ original : ClipFn ρ, clipboardWrapper original env this arguments =
        ({ env with st := logTrackingAttempt env.st },
          .rejected "Not allowed" "NotAllowedError") := by
      intro original; simp [clipboardWrapper, h]
    rw [hw]
    refine ⟨{ env with st := logTrackingAttempt env.st }, _, rfl, ?_⟩
    rw [if_pos h]
    exact ⟨rfl, (logTrackingAttempt_enabled env.st h).2.2.1, rfl⟩
  · have hw : ∀ original : ClipFn ρ, clipboardWrapper original env this arguments =
        original env this arguments := by
      intro original; simp [clipboardWrapper, h]
    rw [hw]
    refine ⟨{ env with nativeCalls := env.nativeCalls ++ [⟨method, this, arguments⟩] }, _,
      rfl, ?_⟩
    rw [if_neg h]
    exact ⟨rfl, rfl, rfl⟩

/-- C10: calling a read method of `navigator.clipboard` after
`protectModernClipboardAPI` has run twice gives the same result, the same
script state (so the same counter increment) and the same log of invocations
of the browser implementation as after it has run once, for any `navigator`,
any value of the enabled flag and any call. -/
theorem clipboard_rewrap_same {ρ : Type} (nav : Navigator ρ) (method : ClipboardMethod)
    (env : ClipEnv) (this : Nat) (arguments : List JsValue) :
    (protectModernClipboardAPI (protectModernClipboardAPI nav)).call method env this arguments =
      (protectModernClipboardAPI nav).call method env this arguments := by
  obtain ⟨clipboard⟩ := nav
  cases clipboard with
  | none => rfl
  | some cb =>
    obtain ⟨readText, read⟩ := cb
    cases readText <;> cases read <;> cases method <;>
      cases h : env.st.protectionEnabled <;>
      simp [protectModernClipboardAPI, Navigator.call, clipboardWrapper, h]

/-! ### Copy and cut -/

theorem getData_after_setData (calls : List EventCall) (sel : String) :
    DomEvent.getData
        ⟨true, calls ++ [.setData "text/plain" sel, .preventDefault, .stopImmediatePropagation]⟩
        "text/plain" = some sel := by
  simp [DomEvent.getData, List.foldl_append]

/-- C6 (amended): for a `copy` or `cut` event at the window-level listener:
if protection is enabled, the selection text is not empty and the event has a
`clipboardData` object, the listener calls, in order, `setData` with
'text/plain' and exactly the selection text, `preventDefault` and
`stopImmediatePropagation`, and counts one attempt; in every other case
(protection disabled, empty selection, or no `clipboardData` object) it
leaves the event and the script state as they were. -/
theorem clipboard_event_handled (t : ClipboardEventType) (sel : String) (e : DomEvent)
    (s : State) :
    if s.protectionEnabled = true ∧ sel ≠ "" ∧ e.hasClipboardData = true then
      (protectClipboard t sel e s).2.calls =
        e.calls ++ [.setData "text/plain" sel, .preventDefault, .stopImmediatePropagation] ∧
      (protectClipboard t sel e s).2.getData "text/plain" = some sel ∧
      (protectClipboard t sel e s).2.preventDefaultCalled = true ∧
      (protectClipboard t sel e s).2.propagationStopped = true ∧
      (protectClipboard t sel e s).1.localTrackingCount = s.localTrackingCount + 1
    else protectClipboard t sel e s = (s, e) := by
  rw [protectClipboard_body]
  split_ifs with h
  · obtain ⟨hen, hsel, hcd⟩ := h
    have hcalls : (protectClipboardBody sel e s).2 =
        ⟨true, e.calls ++ [.setData "text/plain" sel, .preventDefault,
          .stopImmediatePropagation]⟩ := by
      simp [protectClipboardBody, hen, hsel, hcd, DomEvent.call]
    have hst : (protectClipboardBody sel e s).1 = logTrackingAttempt s := by
      simp [protectClipboardBody, hen, hsel, hcd]
    rw [hcalls, hst]
    refine ⟨rfl, getData_after_setData _ _, ?_, ?_, (logTrackingAttempt_enabled s hen).2.2.1⟩
    · simp [DomEvent.preventDefaultCalled]
    · simp [DomEvent.propagationStopped]
  · unfold protectClipboardBody
    cases hen : s.protectionEnabled
    · simp
    · by_cases hsel : sel = ""
      · simp [hsel]
      · cases hcd : e.hasClipboardData
        · simp [hsel]
        · exact absurd ⟨hen, hsel, hcd⟩ h

/-- C6, counterexample: protection enabled, the selection text is "abc", and
the `copy` event has no `clipboardData` object (as one built by
`new ClipboardEvent('copy')`): the listener makes no call on the event and
counts nothing. -/
theorem copy_without_clipboardData_untouched :
    (initialState defaultSettings).protectionEnabled = true ∧
    ("abc" : String) ≠ "" ∧
    protectClipboard .copy "abc" ⟨false, []⟩ (initialState defaultSettings) =
      (initialState defaultSettings, ⟨false, []⟩) := by
  decide


/-! ### The attempt counter over the steps of the script -/

theorem visibilityCheck_count_le (now : Int) (s : State) :
    s.localTrackingCount ≤ (visibilityCheck now s).localTrackingCount := by
  by_cases h : now - s.lastVisibilityCheck > 500 ∧ s.protectionEnabled = true
  · rw [(visibilityCheck_counted now s h.1 h.2).2.2.1]; exact Nat.le_succ _
  · rw [visibilityCheck_skip now s]
    by_cases hen : s.protectionEnabled = true
    · exact Or.inl (not_lt.mp (fun hl => h ⟨hl, hen⟩))
    · exact Or.inr (by simpa using hen)

theorem visibilityCheck_store (now : Int) (s : State) :
    (visibilityCheck now s).store = s.store := by
  by_cases h : now - s.lastVisibilityCheck > 500 ∧ s.protectionEnabled = true
  · unfold visibilityCheck
    have hcond : (decide (now - s.lastVisibilityCheck > 500) && s.protectionEnabled) = true := by
      simp [h.1, h.2]
    rw [if_pos hcond]
    exact (logTrackingAttempt_enabled { s with lastVisibilityCheck := now } h.2).2.2.2.2
  · rw [visibilityCheck_skip now s]
    by_cases hen : s.protectionEnabled = true
    · exact Or.inl (not_lt.mp (fun hl => h ⟨hl, hen⟩))
    · exact Or.inr (by simpa using hen)

theorem logTrackingAttempt_store (s : State) : (logTrackingAttempt s).store = s.store := by
  cases h : s.protectionEnabled
  · rw [logTrackingAttempt_disabled s h]
  · exact (logTrackingAttempt_enabled s h).2.2.2.2

theorem step_count_le (s : State) (st : Step) (h : st.isSettingsLoaded = false) :
    s.localTrackingCount ≤ (step s st).localTrackingCount := by
  cases st with
  | visibilityRead r =>
    simp only [step, visibilityGetter_state]
    exact visibilityCheck_count_le r.now s
  | visibilityChange e =>
    simp only [step, visibilityChangeListener]
    split
    · exact le_refl _
    · exact logTrackingAttempt_count_le s
  | focusEvent t e =>
    simp only [step, focusListener]
    split
    · exact le_refl _
    · exact logTrackingAttempt_count_le s
  | clipboardEvent t sel e =>
    simp only [step, protectClipboard_body, protectClipboardBody]
    split
    · exact le_refl _
    · split
      · split
        · exact logTrackingAttempt_count_le s
        · exact le_refl _
      · exact le_refl _
  | blockingEvent t e =>
    simp only [step, blockingListener]
    split <;> exact le_refl _
  | clipboardRead m this arguments =>
    simp only [step, clipboardWrapper, nativeMethod]
    split
    · exact logTrackingAttempt_count_le s
    · exact le_refl _
  | trackingGetDone data time => exact le_refl _
  | settingsLoaded settings => simp [Step.isSettingsLoaded] at h
  | storageChanged b =>
    cases b <;> exact le_refl _

theorem step_store_eq (s : State) (st : Step) (h : st.isTrackingGetDone = false) :
    (step s st).store = s.store := by
  cases st with
  | visibilityRead r => simp only [step, visibilityGetter_state]; rw [visibilityCheck_store]
  | visibilityChange e =>
    simp only [step, visibilityChangeListener]
    split
    · rfl
    · rw [logTrackingAttempt_store]
  | focusEvent t e =>
    simp only [step, focusListener]
    split
    · rfl
    · rw [logTrackingAttempt_store]
  | clipboardEvent t sel e =>
    simp only [step, protectClipboard_body, protectClipboardBody]
    split
    · rfl
    · split
      · split
        · rw [logTrackingAttempt_store]
        · rfl
      · rfl
  | blockingEvent t e =>
    simp only [step, blockingListener]
    split <;> rfl
  | clipboardRead m this arguments =>
    simp only [step, clipboardWrapper, nativeMethod]
    split
    · rw [logTrackingAttempt_store]
    · rfl
  | trackingGetDone data time => simp [Step.isTrackingGetDone] at h
  | settingsLoaded settings => rfl
  | storageChanged b => cases b <;> rfl

/-- C7 (amended): every step of the content script other than the
settings-load callback leaves `localTrackingCount` at least what it was; the
settings-load callback sets it to the `trackingCount` it is handed (0 when
absent).  The store callback of `logTrackingAttempt` writes as persisted
`trackingCount` the value it is handed plus one, whatever the store holds by
then, which is more than the persisted value when the store still holds the
count it was handed; no other step of the content script writes to the store.
The popup's reset writes 0. -/
theorem attempt_counter_steps (s : State) (st : Step) (h : st.isSettingsLoaded = false) :
    s.localTrackingCount ≤ (step s st).localTrackingCount ∧
    (∀ settings, (step s (.settingsLoaded settings)).localTrackingCount =
      settings.trackingCount.getD 0) ∧
    (∀ data time, (step s (.trackingGetDone data time)).store.trackingCount =
      some (data.trackingCount.getD 0 + 1)) ∧
    (∀ data time, data.trackingCount = s.store.trackingCount →
      s.store.trackingCount.getD 0 <
        (step s (.trackingGetDone data time)).store.trackingCount.getD 0) ∧
    (∀ st1 : Step, st1.isTrackingGetDone = false → (step s st1).store = s.store) ∧
    (popupResetStats s.store).trackingCount = some 0 := by
  refine ⟨step_count_le s st h, fun _ => rfl, fun _ _ => rfl, ?_,
    fun st1 h1 => step_store_eq s st1 h1, rfl⟩
  intro data time hdata
  show s.store.trackingCount.getD 0 < (some (data.trackingCount.getD 0 + 1)).getD 0
  rw [hdata]
  exact Nat.lt_succ_self _

/-- Witness of C7 (amended): a counted read of `hidden` on a fresh script. -/
theorem attempt_counter_steps_witness :
    (initialState defaultSettings).localTrackingCount ≤
      (step (initialState defaultSettings) (.visibilityRead ⟨.hidden, 1000⟩)).localTrackingCount :=
  (attempt_counter_steps (initialState defaultSettings) (.visibilityRead ⟨.hidden, 1000⟩) rfl).1

/-- C7, counterexample, in three parts.  In memory: on a fresh install a read
of `hidden` before the settings request is answered counts one attempt, and
the settings-load callback, handed the answer to the request made at load,
sets `localTrackingCount` back from 1 to 0.  Persisted: in the run
`staleAnswerRun` the store holds the count 11 and the callback of the second
request, handed the count 0 its request was answered with, writes 1 over it.
Other writers: the `onInstalled` write of the background worker takes a
persisted count of 5 to 0, as the popup's reset does. -/
theorem attempt_counter_lowered :
    (Reachable (step (initialState defaultSettings) (.visibilityRead ⟨.hidden, 1000⟩)) ∧
      canFire (step (initialState defaultSettings) (.visibilityRead ⟨.hidden, 1000⟩))
        (.settingsLoaded defaultSettings) = true ∧
      (step (initialState defaultSettings)
        (.visibilityRead ⟨.hidden, 1000⟩)).localTrackingCount = 1 ∧
      (step (step (initialState defaultSettings) (.visibilityRead ⟨.hidden, 1000⟩))
        (.settingsLoaded defaultSettings)).localTrackingCount = 0) ∧
    (Reachable staleAnswerRun ∧
      canFire staleAnswerRun (.trackingGetDone ⟨some true, some 0, none⟩ "10:00:02") = true ∧
      staleAnswerRun.store.trackingCount = some 11 ∧
      (step staleAnswerRun
        (.trackingGetDone ⟨some true, some 0, none⟩ "10:00:02")).store.trackingCount
        = some 1) ∧
    (onInstalled ⟨some false, some 5, some "10:00:00"⟩).trackingCount = some 0 := by
  refine ⟨⟨Reachable.step _ (Reachable.init _) rfl, by decide, by decide, by decide⟩,
    ⟨?_, by decide, by decide, by decide⟩, rfl⟩
  unfold staleAnswerRun
  exact Reachable.step _
    (Reachable.step _ (Reachable.popupReset (Reachable.step _ (Reachable.init _) rfl)) rfl)
    (by decide)

/-! ### Activity simulator: the enabled flag -/

theorem tickCallback_disabled (doc : Document) (win : Viewport) (d : TickDraws) (s : State)
    (sim : Simulator) (h : s.protectionEnabled = false) :
    tickCallback doc win d s sim = ⟨sim, none, false⟩ := by
  simp [tickCallback, h]

theorem smoothMoveCallback_disabled (doc : Document) (s : State) (m : SmoothMove)
    (sim : Simulator) (h : s.protectionEnabled = false) :
    smoothMoveCallback doc s m sim = ({ m with cleared := true }, sim) := by
  simp [smoothMoveCallback, h]

/-- C9, the failing input: with `protectionEnabled` false, the delayed click
callback, run with the pointer at (10, 20) over a `div`, dispatches a `click`
on that element. -/
theorem delayed_click_fires_when_disabled :
    ({ initialState defaultSettings with protectionEnabled := false } : State).protectionEnabled
      = false ∧
    (delayedClickCallback (fun _ _ => some ⟨"div"⟩)
        { initialState defaultSettings with protectionEnabled := false }
        ⟨10, 20, []⟩).dispatched =
      [⟨"click", 10, 20, [.element ⟨"div"⟩]⟩] := by
  refine ⟨rfl, ?_⟩
  simp [delayedClickCallback, Element.matchesControls]


/-! ### Activity simulator: the smooth move -/

theorem runSmoothMove_cleared (doc : Document) (s : State) (fuel : Nat) (m : SmoothMove)
    (sim : Simulator) (h : m.cleared = true) : runSmoothMove doc s fuel m sim = (m, sim) := by
  cases fuel with
  | zero => rfl
  | succ fuel => simp [runSmoothMove, h]

theorem runSmoothMove_succ (doc : Document) (s : State) (fuel : Nat) (m : SmoothMove)
    (sim : Simulator) (h : m.cleared = false) :
    runSmoothMove doc s (fuel + 1) m sim =
      runSmoothMove doc s fuel (smoothMoveCallback doc s m sim).1
        (smoothMoveCallback doc s m sim).2 := by
  simp [runSmoothMove, h]

theorem runSmoothMove_spec (doc : Document) (s : State) (hen : s.protectionEnabled = true) :
    ∀ (n fuel : Nat) (m : SmoothMove) (sim : Simulator),
      m.cleared = false → m.currentStep + n = m.steps → n < fuel →
      (runSmoothMove doc s fuel m sim).1.cleared = true ∧
      (runSmoothMove doc s fuel m sim).2.dispatched =
        sim.dispatched ++ interpolated doc sim.lastX sim.lastY m.stepX m.stepY n ∧
      (runSmoothMove doc s fuel m sim).2.lastX = sim.lastX + n * m.stepX ∧
      (runSmoothMove doc s fuel m sim).2.lastY = sim.lastY + n * m.stepY := by
  intro n
  induction n with
  | zero =>
    intro fuel m sim hcl hstep hfuel
    obtain ⟨fuel, rfl⟩ : ∃ f, fuel = f + 1 := ⟨fuel - 1, by omega⟩
    have hge : m.currentStep ≥ m.steps := by omega
    have hcb : smoothMoveCallback doc s m sim = ({ m with cleared := true }, sim) := by
      simp [smoothMoveCallback, hge]
    rw [runSmoothMove_succ doc s fuel m sim hcl, hcb,
      runSmoothMove_cleared doc s fuel _ sim rfl]
    simp [interpolated]
  | succ n ih =>
    intro fuel m sim hcl hstep hfuel
    obtain ⟨fuel, rfl⟩ : ∃ f, fuel = f + 1 := ⟨fuel - 1, by omega⟩
    have hlt : ¬ (m.currentStep ≥ m.steps) := by omega
    have hcb : smoothMoveCallback doc s m sim =
        ({ m with currentStep := m.currentStep + 1 },
          { lastX := sim.lastX + m.stepX, lastY := sim.lastY + m.stepY,
            dispatched := sim.dispatched ++
              [mouseMoveAt doc (sim.lastX + m.stepX) (sim.lastY + m.stepY)] }) := by
      simp [smoothMoveCallback, hen, hlt, fireMouseEvent]
    rw [runSmoothMove_succ doc s fuel m sim hcl, hcb]
    obtain ⟨h1, h2, h3, h4⟩ := ih fuel { m with currentStep := m.currentStep + 1 }
      { lastX := sim.lastX + m.stepX, lastY := sim.lastY + m.stepY,
        dispatched := sim.dispatched ++
          [mouseMoveAt doc (sim.lastX + m.stepX) (sim.lastY + m.stepY)] }
      hcl (by simp only; omega) (by omega)
    refine ⟨h1, ?_, ?_, ?_⟩
    · rw [h2]; simp [interpolated]
    · rw [h3]; push_cast; ring
    · rw [h4]; push_cast; ring

theorem interpolated_length (doc : Document) (dx dy : ℚ) :
    ∀ (n : Nat) (x y : ℚ), (interpolated doc x y dx dy n).length = n := by
  intro n
  induction n with
  | zero => intro x y; rfl
  | succ n ih => intro x y; simp [interpolated, ih]

theorem interpolated_eventType (doc : Document) (dx dy : ℚ) :
    ∀ (n : Nat) (x y : ℚ), ∀ e ∈ interpolated doc x y dx dy n, e.eventType = "mousemove" := by
  intro n
  induction n with
  | zero => intro x y e he; simp [interpolated] at he
  | succ n ih =>
    intro x y e he
    simp only [interpolated, List.mem_cons] at he
    rcases he with rfl | he
    · rfl
    · exact ih _ _ e he

theorem interpolated_chain_x (doc : Document) (dx dy : ℚ) (R : ℚ → ℚ → Prop)
    (hR : ∀ x, R x (x + dx)) :
    ∀ (n : Nat) (x y : ℚ),
      List.Chain R x ((interpolated doc x y dx dy n).map (fun e => e.clientX)) := by
  intro n
  induction n with
  | zero => intro x y; exact List.Chain.nil
  | succ n ih =>
    intro x y
    simp only [interpolated, List.map_cons]
    exact List.Chain.cons (hR x) (ih _ _)

theorem interpolated_chain_y (doc : Document) (dx dy : ℚ) (R : ℚ → ℚ → Prop)
    (hR : ∀ y, R y (y + dy)) :
    ∀ (n : Nat) (x y : ℚ),
      List.Chain R y ((interpolated doc x y dx dy n).map (fun e => e.clientY)) := by
  intro n
  induction n with
  | zero => intro x y; exact List.Chain.nil
  | succ n ih =>
    intro x y
    simp only [interpolated, List.map_cons]
    exact List.Chain.cons (hR y) (ih _ _)

theorem interpolated_getLast (doc : Document) (dx dy : ℚ) :
    ∀ (n : Nat) (x y : ℚ),
      ((interpolated doc x y dx dy (n + 1)).getLast?).map (fun e => (e.clientX, e.clientY)) =
        some (x + (n + 1 : ℕ) * dx, y + (n + 1 : ℕ) * dy) := by
  intro n
  induction n with
  | zero => intro x y; simp [interpolated, mouseMoveAt]
  | succ n ih =>
    intro x y
    have hcons : interpolated doc x y dx dy (n + 1 + 1) =
        mouseMoveAt doc (x + dx) (y + dy) ::
          interpolated doc (x + dx) (y + dy) dx dy (n + 1) := rfl
    have hne : interpolated doc (x + dx) (y + dy) dx dy (n + 1) ≠ [] := by
      simp [interpolated]
    obtain ⟨a, l, hal⟩ := List.exists_cons_of_ne_nil hne
    rw [hcons, hal, List.getLast?_cons_cons, ← hal, ih]
    congr 1
    push_cast
    congr 1 <;> ring


theorem newSmoothMove_reach (sim : Simulator) (targetX targetY : ℚ) (steps : Nat)
    (hpos : 0 < steps) :
    sim.lastX + steps * (newSmoothMove sim targetX targetY steps).stepX = targetX ∧
    sim.lastY + steps * (newSmoothMove sim targetX targetY steps).stepY = targetY := by
  have hne : (steps : ℚ) ≠ 0 := by exact_mod_cast Nat.pos_iff_ne_zero.mp hpos
  constructor <;> simp only [newSmoothMove] <;> field_simp

theorem newSmoothMove_sign (sim : Simulator) (targetX targetY : ℚ) (steps : Nat)
    (hpos : 0 < steps) :
    (sim.lastX < targetX → 0 < (newSmoothMove sim targetX targetY steps).stepX) ∧
    (targetX < sim.lastX → (newSmoothMove sim targetX targetY steps).stepX < 0) ∧
    (sim.lastX = targetX → (newSmoothMove sim targetX targetY steps).stepX = 0) ∧
    (sim.lastY < targetY → 0 < (newSmoothMove sim targetX targetY steps).stepY) ∧
    (targetY < sim.lastY → (newSmoothMove sim targetX targetY steps).stepY < 0) ∧
    (sim.lastY = targetY → (newSmoothMove sim targetX targetY steps).stepY = 0) := by
  have hq : (0 : ℚ) < steps := by exact_mod_cast hpos
  simp only [newSmoothMove]
  refine ⟨?_, ?_, ?_, ?_, ?_, ?_⟩
  · intro h; exact div_pos (by linarith) hq
  · intro h; exact div_neg_of_neg_of_pos (by linarith) hq
  · intro h; simp [h]
  · intro h; exact div_pos (by linarith) hq
  · intro h; exact div_neg_of_neg_of_pos (by linarith) hq
  · intro h; simp [h]

/-- C8 (amended): a smooth move from `(lastX, lastY)` to `(targetX, targetY)`
with 5 to 14 steps, over the rationals, left to run while protection is
enabled (the inner interval firing more than `steps` times), ends with the
interval cleared after dispatching `steps` `mousemove` events.  In a
coordinate where the target is above the start the dispatched values rise
strictly from the start, where it is below they fall strictly, and where
target and start are equal they all equal it; the last point dispatched is
the target, and so is the final `(lastX, lastY)`. -/
theorem smooth_move_path (doc : Document) (s : State) (sim : Simulator)
    (targetX targetY : ℚ) (steps fuel : Nat)
    (hen : s.protectionEnabled = true) (h5 : 5 ≤ steps) (h14 : steps ≤ 14)
    (hfuel : steps < fuel) :
    ∃ pts : List SyntheticEvent,
      (runSmoothMove doc s fuel (newSmoothMove sim targetX targetY steps) sim).1.cleared
        = true ∧
      (runSmoothMove doc s fuel (newSmoothMove sim targetX targetY steps) sim).2.dispatched
        = sim.dispatched ++ pts ∧
      pts.length = steps ∧
      (∀ e ∈ pts, e.eventType = "mousemove") ∧
      (sim.lastX < targetX →
        List.Chain (fun a b => a < b) sim.lastX (pts.map (fun e => e.clientX))) ∧
      (targetX < sim.lastX →
        List.Chain (fun a b => a > b) sim.lastX (pts.map (fun e => e.clientX))) ∧
      (sim.lastX = targetX →
        List.Chain (fun a b => a = b) sim.lastX (pts.map (fun e => e.clientX))) ∧
      (sim.lastY < targetY →
        List.Chain (fun a b => a < b) sim.lastY (pts.map (fun e => e.clientY))) ∧
      (targetY < sim.lastY →
        List.Chain (fun a b => a > b) sim.lastY (pts.map (fun e => e.clientY))) ∧
      (sim.lastY = targetY →
        List.Chain (fun a b => a = b) sim.lastY (pts.map (fun e => e.clientY))) ∧
      pts.getLast?.map (fun e => (e.clientX, e.clientY)) = some (targetX, targetY) ∧
      (runSmoothMove doc s fuel (newSmoothMove sim targetX targetY steps) sim).2.lastX
        = targetX ∧
      (runSmoothMove doc s fuel (newSmoothMove sim targetX targetY steps) sim).2.lastY
        = targetY := by
  have hpos : 0 < steps := by omega
  have _h14 := h14
  obtain ⟨hcl, hdisp, hx, hy⟩ :=
    runSmoothMove_spec doc s hen steps fuel (newSmoothMove sim targetX targetY steps) sim
      rfl (by simp [newSmoothMove]) hfuel
  obtain ⟨hrx, hry⟩ := newSmoothMove_reach sim targetX targetY steps hpos
  obtain ⟨sx1, sx2, sx3, sy1, sy2, sy3⟩ := newSmoothMove_sign sim targetX targetY steps hpos
  refine ⟨_, hcl, hdisp, interpolated_length _ _ _ _ _ _, interpolated_eventType _ _ _ _ _ _,
    ?_, ?_, ?_, ?_, ?_, ?_, ?_, hx.trans hrx, hy.trans hry⟩
  · intro h; exact interpolated_chain_x _ _ _ _ (fun x => by linarith [sx1 h]) _ _ _
  · intro h; exact interpolated_chain_x _ _ _ _ (fun x => by linarith [sx2 h]) _ _ _
  · intro h; exact interpolated_chain_x _ _ _ _ (fun x => by rw [sx3 h, add_zero]) _ _ _
  · intro h; exact interpolated_chain_y _ _ _ _ (fun y => by linarith [sy1 h]) _ _ _
  · intro h; exact interpolated_chain_y _ _ _ _ (fun y => by linarith [sy2 h]) _ _ _
  · intro h; exact interpolated_chain_y _ _ _ _ (fun y => by rw [sy3 h, add_zero]) _ _ _
  · obtain ⟨n, rfl⟩ : ∃ n, steps = n + 1 := ⟨steps - 1, by omega⟩
    rw [interpolated_getLast, hrx, hry]

/-- Witness of C8 (amended): a move of 5 steps from (0, 0) to (10, 20). -/
theorem smooth_move_path_witness :
    (runSmoothMove (fun _ _ => none) (initialState defaultSettings) 6
        (newSmoothMove ⟨0, 0, []⟩ 10 20 5) ⟨0, 0, []⟩).2.lastX = 10 := by
  obtain ⟨_, _, _, _, _, _, _, _, _, _, _, _, hx, _⟩ :=
    smooth_move_path (fun _ _ => none) (initialState defaultSettings) ⟨0, 0, []⟩ 10 20 5 6
      rfl (by decide) (by decide) (by decide)
  exact hx

/-- C8, counterexample: a smooth move of 5 steps from (0, 0) to (0, 10), run to
completion while enabled, dispatches the points (0, 2), (0, 4), (0, 6),
(0, 8), (0, 10): the x-coordinates neither rise strictly nor fall strictly. -/
theorem smooth_move_constant_coordinate :
    (initialState defaultSettings).protectionEnabled = true ∧
    ((runSmoothMove (fun _ _ => none) (initialState defaultSettings) 6
        (newSmoothMove ⟨0, 0, []⟩ 0 10 5) ⟨0, 0, []⟩).2.dispatched.map
      (fun e => (e.clientX, e.clientY))) = [(0, 2), (0, 4), (0, 6), (0, 8), (0, 10)] ∧
    ¬ List.Chain' (fun a b : ℚ => a < b)
      ((runSmoothMove (fun _ _ => none) (initialState defaultSettings) 6
        (newSmoothMove ⟨0, 0, []⟩ 0 10 5) ⟨0, 0, []⟩).2.dispatched.map (fun e => e.clientX)) ∧
    ¬ List.Chain' (fun a b : ℚ => a > b)
      ((runSmoothMove (fun _ _ => none) (initialState defaultSettings) 6
        (newSmoothMove ⟨0, 0, []⟩ 0 10 5) ⟨0, 0, []⟩).2.dispatched.map (fun e => e.clientX)) := by
  have hrun : (runSmoothMove (fun _ _ => none) (initialState defaultSettings) 6
      (newSmoothMove ⟨0, 0, []⟩ 0 10 5) ⟨0, 0, []⟩).2.dispatched =
      [⟨"mousemove", 0, 2, [.document]⟩, ⟨"mousemove", 0, 4, [.document]⟩,
        ⟨"mousemove", 0, 6, [.document]⟩, ⟨"mousemove", 0, 8, [.document]⟩,
        ⟨"mousemove", 0, 10, [.document]⟩] := by
    simp [runSmoothMove, smoothMoveCallback, newSmoothMove, fireMouseEvent, mouseMoveAt,
      initialState]
    norm_num
  rw [hrun]
  exact ⟨rfl, by simp, by simp, by simp⟩

end UnicornSpy
